import Mathlib

/-!
Verification of the nxstyle structural C-style checker
(`tools/nxtool/nxtool/nxstyle/nxstyle.py`).

The checker walks a tree-sitter concrete syntax tree.  We shallowly embed
the data it consumes — tree-sitter nodes with a type tag, a named flag,
an optional field label, start/end points and an ordered child list — and
translate each checking method of `CChecker` into a Lean function.

Python exceptions (KeyError on a missing capture name, AttributeError on
`None.start_point`, IndexError on list indexing) are modelled by `Option`:
a function returns `none` exactly when the Python code would raise an
uncaught exception, and `some output` when it runs to completion having
printed `output` (in order).
-/

/-- A tree-sitter position: zero-based row and column. -/
structure Point where
  row : Nat
  column : Nat
deriving DecidableEq, Repr

/-- Diagnostic severity, as produced by `Checker.info` / `.warning` / `.error`. -/
inductive Severity where
  | info
  | warning
  | error
deriving DecidableEq, Repr

/-- One line printed by the checker.  `diag` models a line formatted by
`Checker.info/warning/error` (position, severity, message); `raw` models the
bare `print(f"{node.start_point}")` at the top of
`__check_indents_switch_statement`, which prints the position's repr with no
path, severity or message. -/
inductive OutLine where
  | diag (point : Point) (sev : Severity) (text : String)
  | raw (point : Point)
deriving DecidableEq, Repr

/-- The `[<SEVERITY>]` tag used in a formatted diagnostic. -/
def Severity.tag : Severity → String
  | Severity.info => "INFO"
  | Severity.warning => "WARNING"
  | Severity.error => "ERROR"

/-- Rendering of a printed line, given the resolved file path.  A `diag`
line renders as `<file>:<row+1>:<column>: [<SEVERITY>] <text>` exactly as in
`Checker.error` (1-based line, 0-based column); a `raw` line renders as the
Python repr of a tree-sitter `Point`. -/
def renderLine (file : String) : OutLine → String
  | OutLine.diag p sev text =>
      file ++ (":" ++ (toString (p.row + 1) ++ (":" ++ (toString p.column ++
        (": [" ++ (Severity.tag sev ++ ("] " ++ text)))))))
  | OutLine.raw p =>
      "Point(row=" ++ (toString p.row ++ (", column=" ++ (toString p.column ++ ")")))

/-- A string has the documented diagnostic shape
`<resolved-absolute-path>:<line>:<column>: [<SEVERITY>] <message>` for file
`file` iff it is the rendering of some `diag` line. -/
def diagShaped (file s : String) : Prop :=
  ∃ p sev text, s = renderLine file (OutLine.diag p sev text)

/-- A tree-sitter syntax node: type tag, named flag, optional field label
(the grammar field this node occupies in its parent), start/end points, and
the ordered list of all children (named and anonymous). -/
inductive Node where
  | mk (type : String) (named : Bool) (field : Option String)
       (startPoint endPoint : Point) (children : List Node)

def Node.type : Node → String
  | Node.mk t _ _ _ _ _ => t

def Node.named : Node → Bool
  | Node.mk _ b _ _ _ _ => b

def Node.field : Node → Option String
  | Node.mk _ _ f _ _ _ => f

def Node.startPoint : Node → Point
  | Node.mk _ _ _ s _ _ => s

def Node.endPoint : Node → Point
  | Node.mk _ _ _ _ e _ => e

def Node.children : Node → List Node
  | Node.mk _ _ _ _ _ c => c

/-- `node.named_children`: the children whose `named` flag is set. -/
def Node.namedChildren (n : Node) : List Node :=
  n.children.filter (fun c => c.named)

/-- `node.child_by_field_name(f)`: the first child carrying field label `f`,
or `none` (Python `None`). -/
def Node.childByFieldName (n : Node) (f : String) : Option Node :=
  n.children.find? (fun c => c.field == some f)

/-- Index of the first child carrying field label `f`. -/
def Node.fieldIdx (n : Node) (f : String) : Option Nat :=
  n.children.findIdx? (fun c => c.field == some f)

/-- `child.prev_sibling` for the child found under field `f` of `n`
(tree-sitter siblings include anonymous tokens; the previous sibling of the
first child is `None`). -/
def Node.prevSiblingOf (n : Node) (f : String) : Option Node :=
  match n.fieldIdx f with
  | none => none
  | some i => if i = 0 then none else n.children.get? (i - 1)

/-- `child.next_sibling` for the child found under field `f` of `n`. -/
def Node.nextSiblingOf (n : Node) (f : String) : Option Node :=
  match n.fieldIdx f with
  | none => none
  | some i => n.children.get? (i + 1)

/-- Python negative indexing `l[-k]` (raises when out of range, hence
`Option`). -/
def getNeg (l : List Node) (k : Nat) : Option Node :=
  if 1 ≤ k ∧ k ≤ l.length then l.get? (l.length - k) else none

/-- Python dict lookup `captures[k]` on the capture set, minus the raise:
`none` models an absent key (where Python raises `KeyError`). -/
def lookupCapture (captures : List (String × List Node)) (k : String) :
    Option (List Node) :=
  (captures.find? (fun p => p.1 == k)).map Prod.snd

/-- `Checker.style_assert(check, message)`: prints `message` exactly when
`check` holds.  The printed output is returned as a list. -/
def style_assert (check : Prop) [Decidable check] (line : OutLine) : List OutLine :=
  if check then [line] else []

/-- Sequences a list of run results, concatenating their printed output and
propagating the first raise (`none`). -/
def joinDiags : List (Option (List OutLine)) → Option (List OutLine)
  | [] => some []
  | o :: os =>
    match o with
    | none => none
    | some a =>
      match joinDiags os with
      | none => none
      | some b => some (a ++ b)

/-- Lines 228–293 of `__check_indents_for_statement`: the `for`-header
checks (keyword spacing, then the initializer / condition / update clause
checks with the alignment rule).  Returns the printed diagnostics, `none` on
a raise.  Matches the Python flow: `align_start_point` is set from the
initializer's start point, and `align` becomes true when a condition clause
starts on a different row than the initializer. -/
def for_header (node : Node) : Option (List OutLine) := do
  let for_keyword ← node.children.get? 0
  let fkNext ← node.children.get? 1
  let out1 := style_assert
    (((fkNext.startPoint.column : Int) - (for_keyword.endPoint.column : Int)) ≠ 1)
    (OutLine.diag for_keyword.endPoint Severity.error "Missing whitespace after keyword")
  let initializer := node.childByFieldName "initializer"
  let condition := node.childByFieldName "condition"
  let update := node.childByFieldName "update"
  let resI ← (match initializer with
    | none => some (([] : List OutLine), (none : Option Point))
    | some ini => do
      let iPrev ← node.prevSiblingOf "initializer"
      let iNext ← node.nextSiblingOf "initializer"
      some (style_assert
              (((ini.startPoint.column : Int) - (iPrev.endPoint.column : Int)) ≠ 0)
              (OutLine.diag ini.endPoint Severity.error "Missing whitespace after keyword") ++
            style_assert
              (((iNext.startPoint.column : Int) - (ini.endPoint.column : Int)) ≠ 0)
              (OutLine.diag ini.endPoint Severity.error "Operator must be next to an operand"),
            some ini.startPoint))
  let outI := resI.1
  let align_start_point := resI.2
  let resC ← (match condition with
    | none => some (([] : List OutLine), false)
    | some cond => do
      let cNext ← node.nextSiblingOf "condition"
      let o1 := style_assert
        (((cNext.startPoint.column : Int) - (cond.endPoint.column : Int)) ≠ 0)
        (OutLine.diag cond.endPoint Severity.error "Operator must be next to an operand")
      match align_start_point with
      | some ap =>
        if cond.startPoint.row ≠ ap.row then
          some (o1 ++ style_assert (cond.startPoint.column ≠ ap.column)
                  (OutLine.diag cond.endPoint Severity.error "Missaligned statements"),
                true)
        else do
          let cPrev ← node.prevSiblingOf "condition"
          some (o1 ++ style_assert
                  (((cond.startPoint.column : Int) - (cPrev.endPoint.column : Int)) ≠ 1)
                  (OutLine.diag cond.endPoint Severity.error "Missing whitespace after keyword"),
                false)
      | none => do
        let cPrev ← node.prevSiblingOf "condition"
        some (o1 ++ style_assert
                (((cond.startPoint.column : Int) - (cPrev.endPoint.column : Int)) ≠ 1)
                (OutLine.diag cond.endPoint Severity.error "Missing whitespace after keyword"),
              false))
  let outC := resC.1
  let align := resC.2
  let outU ← (match update with
    | none => some ([] : List OutLine)
    | some upd => do
      let uNext ← node.nextSiblingOf "update"
      let o1 := style_assert
        (((uNext.startPoint.column : Int) - (upd.endPoint.column : Int)) ≠ 0)
        (OutLine.diag upd.endPoint Severity.error "Operator must be next to an operand")
      if align then
        match align_start_point with
        | some ap =>
          some (o1 ++ style_assert (upd.startPoint.column ≠ ap.column)
                  (OutLine.diag upd.endPoint Severity.error "Missaligned statements"))
        | none => none
      else do
        let uPrev ← node.prevSiblingOf "update"
        some (o1 ++ style_assert
                (((upd.startPoint.column : Int) - (uPrev.endPoint.column : Int)) ≠ 1)
                (OutLine.diag upd.endPoint Severity.error "Missing whitespace after keyword")))
  pure (out1 ++ outI ++ outC ++ outU)

mutual

/-- `CChecker.__check_indents(indent, node)`: dispatch on the node type.
Only `if`/`for`/`while`/`switch` statements are delegated to handlers (with
no further check after the handler returns), `return_statement` and
`expression_statement` recurse into each named child at `indent + 2` and
then assert the node's own start column; every other node type (including
`do_statement`, `declaration` and `break_statement`) falls through to the
default arm and is a no-op. -/
def check_indents (indent : Nat) (node : Node) : Option (List OutLine) :=
  if node.type = "if_statement" then
    check_indents_if_statement indent node
  else if node.type = "for_statement" then
    check_indents_for_statement indent node
  else if node.type = "while_statement" then
    check_indents_while_statement indent node
  else if node.type = "switch_statement" then
    check_indents_switch_statement indent node
  else if node.type = "return_statement" ∨ node.type = "expression_statement" then
    match check_indents_list (indent + 2) node.namedChildren with
    | none => none
    | some out =>
      some (out ++ style_assert (node.startPoint.column ≠ indent)
        (OutLine.diag node.startPoint Severity.error "Wrong indentation"))
  else some []
termination_by 3 * sizeOf node + 1
decreasing_by
· omega
· omega
· omega
· omega
· have hfil : ∀ l : List Node, sizeOf (l.filter (fun c => c.named)) ≤ sizeOf l := by
    intro l
    induction l with
    | nil => simp
    | cons a t ih => cases hpa : a.named <;> simp [List.filter_cons, hpa] <;> omega
  have h1 : sizeOf node.namedChildren ≤ sizeOf node.children := hfil node.children
  have h2 : sizeOf node.children < sizeOf node := by
    cases node
    simp only [Node.children, Node.mk.sizeOf_spec]
    omega
  omega

/-- The `for n in …: self.__check_indents(indent, n)` loops: runs
`check_indents` on each node in order, concatenating output, propagating a
raise. -/
def check_indents_list (indent : Nat) (nodes : List Node) : Option (List OutLine) :=
  match nodes with
  | [] => some []
  | n :: ns =>
    match check_indents indent n with
    | none => none
    | some out =>
      match check_indents_list indent ns with
      | none => none
      | some rest => some (out ++ rest)
termination_by 3 * sizeOf nodes + 2
decreasing_by
· have := List.sizeOf_lt_of_mem (List.mem_cons_self n ns)
  omega
· simp only [List.cons.sizeOf_spec]
  omega

/-- The loop over `case_statements` in `__check_indents_switch_statement`. -/
def case_statement_checks (indent : Nat) (nodes : List Node) : Option (List OutLine) :=
  match nodes with
  | [] => some []
  | n :: ns =>
    match check_indents_case_statement indent n with
    | none => none
    | some out =>
      match case_statement_checks indent ns with
      | none => none
      | some rest => some (out ++ rest)
termination_by 3 * sizeOf nodes + 2
decreasing_by
· have := List.sizeOf_lt_of_mem (List.mem_cons_self n ns)
  omega
· simp only [List.cons.sizeOf_spec]
  omega

/-- `CChecker.__check_indents_if_statement(indent, node)`.  Unwraps the
`if` keyword, `condition`, `consequence` and optional `alternative`; checks
keyword spacing, open-brace row/column, recurses into the consequence's
named children at `indent + 4`, checks close-brace row/column, and for an
alternative checks the `else` column and recurses `check_indents` at the
same `indent` on `alternative.children[1]`. -/
def check_indents_if_statement (indent : Nat) (node : Node) : Option (List OutLine) :=
  match hk : node.children.get? 0, hc : node.childByFieldName "condition",
        hq : node.childByFieldName "consequence" with
  | some if_keyword, some condition, some consequence =>
    let out1 := style_assert
      (((condition.startPoint.column : Int) - (if_keyword.endPoint.column : Int)) ≠ 1)
      (OutLine.diag if_keyword.endPoint Severity.error "Missing whitespace after keyword")
    match consequence.children.get? 0 with
    | none => none
    | some c0 =>
      let out2 := style_assert (c0.startPoint.row = condition.startPoint.row)
        (OutLine.diag condition.startPoint Severity.error "Left bracket not on separate line")
      let out3 := style_assert (c0.startPoint.column ≠ indent + 2)
        (OutLine.diag consequence.startPoint Severity.error "Wrong indentation")
      match check_indents_list (indent + 4) consequence.namedChildren with
      | none => none
      | some out4 =>
        match getNeg consequence.children 1, getNeg consequence.children 2 with
        | some cm1, some cm2 =>
          let out5 := style_assert (cm1.startPoint.row = cm2.startPoint.row)
            (OutLine.diag condition.startPoint Severity.error "Left bracket not on separate line")
          let out6 := style_assert (cm1.startPoint.column ≠ indent + 2)
            (OutLine.diag cm1.startPoint Severity.error "Wrong indentation")
          match halt : node.childByFieldName "alternative" with
          | none => some (out1 ++ out2 ++ out3 ++ out4 ++ out5 ++ out6)
          | some alternative =>
            match alternative.children.get? 0 with
            | none => none
            | some a0 =>
              let out7 := style_assert (a0.startPoint.column ≠ indent)
                (OutLine.diag alternative.startPoint Severity.error "Wrong indentation")
              match ha1 : alternative.children.get? 1 with
              | none => none
              | some a1 =>
                match check_indents indent a1 with
                | none => none
                | some out8 =>
                  some (out1 ++ out2 ++ out3 ++ out4 ++ out5 ++ out6 ++ out7 ++ out8)
        | _, _ => none
  | _, _, _ => none
termination_by 3 * sizeOf node
decreasing_by
· have hm : consequence ∈ node.children := List.mem_of_find?_eq_some hq
  have h1 : sizeOf consequence < sizeOf node.children := List.sizeOf_lt_of_mem hm
  have hfil : ∀ l : List Node, sizeOf (l.filter (fun c => c.named)) ≤ sizeOf l := by
    intro l
    induction l with
    | nil => simp
    | cons a t ih => cases hpa : a.named <;> simp [List.filter_cons, hpa] <;> omega
  have h2 : sizeOf consequence.namedChildren ≤ sizeOf consequence.children :=
    hfil consequence.children
  have h3 : sizeOf consequence.children < sizeOf consequence := by
    cases consequence
    simp only [Node.children, Node.mk.sizeOf_spec]
    omega
  have h4 : sizeOf node.children < sizeOf node := by
    cases node
    simp only [Node.children, Node.mk.sizeOf_spec]
    omega
  omega
· have hm : alternative ∈ node.children := List.mem_of_find?_eq_some halt
  have h1 : sizeOf alternative < sizeOf node.children := List.sizeOf_lt_of_mem hm
  have hm2 : a1 ∈ alternative.children := List.get?_mem ha1
  have h2 : sizeOf a1 < sizeOf alternative.children := List.sizeOf_lt_of_mem hm2
  have h3 : sizeOf alternative.children < sizeOf alternative := by
    cases alternative
    simp only [Node.children, Node.mk.sizeOf_spec]
    omega
  have h4 : sizeOf node.children < sizeOf node := by
    cases node
    simp only [Node.children, Node.mk.sizeOf_spec]
    omega
  omega

/-- `CChecker.__check_indents_for_statement(indent, node)`: the header
checks (`for_header`), then the body.  A compound body gets the same
brace-layout checks as the `if` consequence (the close-brace check builds
its message from `condition.start_point`, raising when there is no
condition clause); an `expression_statement` body with no named child gets
the empty-body row check (whose message also dereferences `condition`),
otherwise its named children are recursed at `indent + 4`. -/
def check_indents_for_statement (indent : Nat) (node : Node) : Option (List OutLine) :=
  match for_header node with
  | none => none
  | some outH =>
    match hb : node.childByFieldName "body" with
    | none => none
    | some body =>
      if body.type = "compound_statement" then
        match body.children.get? 0 with
        | none => none
        | some b0 =>
          match hkw : node.children.get? 0 with
          | none => none
          | some for_keyword =>
            let out2 := style_assert (b0.startPoint.row = for_keyword.startPoint.row)
              (OutLine.diag body.startPoint Severity.error "Left bracket not on separate line")
            let out3 := style_assert (b0.startPoint.column ≠ indent + 2)
              (OutLine.diag body.startPoint Severity.error "Wrong indentation")
            match check_indents_list (indent + 4) body.namedChildren with
            | none => none
            | some out4 =>
              match getNeg body.children 1, getNeg body.children 2 with
              | some bm1, some bm2 =>
                match node.childByFieldName "condition" with
                | none => none
                | some condition =>
                  some (outH ++ out2 ++ out3 ++ out4 ++
                    style_assert (bm1.startPoint.row = bm2.startPoint.row)
                      (OutLine.diag condition.startPoint Severity.error
                        "Left bracket not on separate line") ++
                    style_assert (bm1.startPoint.column ≠ indent + 2)
                      (OutLine.diag bm1.startPoint Severity.error "Wrong indentation"))
              | _, _ => none
      else if body.type = "expression_statement" then
        if body.namedChildren.length = 0 then
          match node.prevSiblingOf "body" with
          | none => none
          | some bPrev =>
            match node.childByFieldName "condition" with
            | none => none
            | some condition =>
              some (outH ++
                style_assert (bPrev.startPoint.row ≠ body.startPoint.row)
                  (OutLine.diag condition.startPoint Severity.error
                    "Empty body should be inline with last node"))
        else
          match check_indents_list (indent + 4) body.namedChildren with
          | none => none
          | some out2 => some (outH ++ out2)
      else some outH
termination_by 3 * sizeOf node
decreasing_by
· have hm : body ∈ node.children := List.mem_of_find?_eq_some hb
  have h1 : sizeOf body < sizeOf node.children := List.sizeOf_lt_of_mem hm
  have hfil : ∀ l : List Node, sizeOf (l.filter (fun c => c.named)) ≤ sizeOf l := by
    intro l
    induction l with
    | nil => simp
    | cons a t ih => cases hpa : a.named <;> simp [List.filter_cons, hpa] <;> omega
  have h2 : sizeOf body.namedChildren ≤ sizeOf body.children := hfil body.children
  have h3 : sizeOf body.children < sizeOf body := by
    cases body
    simp only [Node.children, Node.mk.sizeOf_spec]
    omega
  have h4 : sizeOf node.children < sizeOf node := by
    cases node
    simp only [Node.children, Node.mk.sizeOf_spec]
    omega
  omega
· have hm : body ∈ node.children := List.mem_of_find?_eq_some hb
  have h1 : sizeOf body < sizeOf node.children := List.sizeOf_lt_of_mem hm
  have hfil : ∀ l : List Node, sizeOf (l.filter (fun c => c.named)) ≤ sizeOf l := by
    intro l
    induction l with
    | nil => simp
    | cons a t ih => cases hpa : a.named <;> simp [List.filter_cons, hpa] <;> omega
  have h2 : sizeOf body.namedChildren ≤ sizeOf body.children := hfil body.children
  have h3 : sizeOf body.children < sizeOf body := by
    cases body
    simp only [Node.children, Node.mk.sizeOf_spec]
    omega
  have h4 : sizeOf node.children < sizeOf node := by
    cases node
    simp only [Node.children, Node.mk.sizeOf_spec]
    omega
  omega

/-- `CChecker.__check_indents_while_statement(indent, node)`: keyword
spacing, open-brace row/column against the condition's row, recursion into
the body's named children at `indent + 4`, close-brace row/column. -/
def check_indents_while_statement (indent : Nat) (node : Node) : Option (List OutLine) :=
  match hk : node.children.get? 0, hc : node.childByFieldName "condition",
        hb : node.childByFieldName "body" with
  | some while_keyword, some condition, some body =>
    let out1 := style_assert
      (((condition.startPoint.column : Int) - (while_keyword.endPoint.column : Int)) ≠ 1)
      (OutLine.diag while_keyword.endPoint Severity.error "Missing whitespace after keyword")
    match body.children.get? 0 with
    | none => none
    | some b0 =>
      let out2 := style_assert (b0.startPoint.row = condition.startPoint.row)
        (OutLine.diag condition.startPoint Severity.error "Left bracket not on separate line")
      let out3 := style_assert (b0.startPoint.column ≠ indent + 2)
        (OutLine.diag body.startPoint Severity.error "Wrong indentation")
      match check_indents_list (indent + 4) body.namedChildren with
      | none => none
      | some out4 =>
        match getNeg body.children 1, getNeg body.children 2 with
        | some bm1, some bm2 =>
          some (out1 ++ out2 ++ out3 ++ out4 ++
            style_assert (bm1.startPoint.row = bm2.startPoint.row)
              (OutLine.diag condition.startPoint Severity.error
                "Left bracket not on separate line") ++
            style_assert (bm1.startPoint.column ≠ indent + 2)
              (OutLine.diag bm1.startPoint Severity.error "Wrong indentation"))
        | _, _ => none
  | _, _, _ => none
termination_by 3 * sizeOf node
decreasing_by
· have hm : body ∈ node.children := List.mem_of_find?_eq_some hb
  have h1 : sizeOf body < sizeOf node.children := List.sizeOf_lt_of_mem hm
  have hfil : ∀ (p : Node → Bool) (l : List Node), sizeOf (l.filter p) ≤ sizeOf l := by
    intro p l
    induction l with
    | nil => simp
    | cons a t ih => cases hpa : p a <;> simp [List.filter_cons, hpa] <;> omega
  have h2 : sizeOf body.namedChildren ≤ sizeOf body.children :=
    hfil (fun c => c.named) body.children
  have h3 : sizeOf body.children < sizeOf body := by
    cases body
    simp only [Node.children, Node.mk.sizeOf_spec]
    omega
  have h4 : sizeOf node.children < sizeOf node := by
    cases node
    simp only [Node.children, Node.mk.sizeOf_spec]
    omega
  omega

/-- `CChecker.__check_indents_switch_statement(indent, node)`: starts by
printing the node's raw start point (`print(f"{node.start_point}")`), then
keyword spacing, open-brace row/column against the `switch` keyword's row,
the case-statement loop at `indent + 4`, close-brace row/column. -/
def check_indents_switch_statement (indent : Nat) (node : Node) : Option (List OutLine) :=
  match hk : node.children.get? 0, hc : node.childByFieldName "condition",
        hb : node.childByFieldName "body" with
  | some switch_keyword, some condition, some body =>
    let out0 := [OutLine.raw node.startPoint]
    let out1 := style_assert
      (((condition.startPoint.column : Int) - (switch_keyword.endPoint.column : Int)) ≠ 1)
      (OutLine.diag switch_keyword.endPoint Severity.error "Missing whitespace after keyword")
    match body.children.get? 0 with
    | none => none
    | some b0 =>
      let out2 := style_assert (b0.startPoint.row = switch_keyword.startPoint.row)
        (OutLine.diag body.startPoint Severity.error "Left bracket not on separate line")
      let out3 := style_assert (b0.startPoint.column ≠ indent + 2)
        (OutLine.diag body.startPoint Severity.error "Wrong indentation")
      match case_statement_checks (indent + 4)
              (body.namedChildren.filter (fun c => c.type == "case_statement")) with
      | none => none
      | some out4 =>
        match getNeg body.children 1, getNeg body.children 2 with
        | some bm1, some bm2 =>
          some (out0 ++ out1 ++ out2 ++ out3 ++ out4 ++
            style_assert (bm1.startPoint.row = bm2.startPoint.row)
              (OutLine.diag condition.startPoint Severity.error
                "Left bracket not on separate line") ++
            style_assert (bm1.startPoint.column ≠ indent + 2)
              (OutLine.diag bm1.startPoint Severity.error "Wrong indentation"))
        | _, _ => none
  | _, _, _ => none
termination_by 3 * sizeOf node
decreasing_by
· have hm : body ∈ node.children := List.mem_of_find?_eq_some hb
  have h1 : sizeOf body < sizeOf node.children := List.sizeOf_lt_of_mem hm
  have hfil : ∀ (p : Node → Bool) (l : List Node), sizeOf (l.filter p) ≤ sizeOf l := by
    intro p l
    induction l with
    | nil => simp
    | cons a t ih => cases hpa : p a <;> simp [List.filter_cons, hpa] <;> omega
  have h2 : sizeOf (body.namedChildren.filter (fun c => c.type == "case_statement")) ≤
      sizeOf body.namedChildren :=
    hfil (fun c => c.type == "case_statement") body.namedChildren
  have h3 : sizeOf body.namedChildren ≤ sizeOf body.children :=
    hfil (fun c => c.named) body.children
  have h4 : sizeOf body.children < sizeOf body := by
    cases body
    simp only [Node.children, Node.mk.sizeOf_spec]
    omega
  have h5 : sizeOf node.children < sizeOf node := by
    cases node
    simp only [Node.children, Node.mk.sizeOf_spec]
    omega
  omega

/-- `CChecker.__check_indents_case_statement(indent, node)`: asserts the
label's own column, checks keyword/value spacing depending on whether the
label token is `case` or `default`, then recurses `check_indents` at
`indent + 2` over `node.children[3:]` — unconditionally dropping three
children in both the `case` and the `default` shape. -/
def check_indents_case_statement (indent : Nat) (node : Node) : Option (List OutLine) :=
  match node.children.get? 0 with
  | none => none
  | some case_keyword =>
    let value := node.childByFieldName "value"
    let out1 := style_assert (node.startPoint.column ≠ indent)
      (OutLine.diag node.startPoint Severity.error "Wrong indentation")
    let spacing : Option (List OutLine) :=
      if case_keyword.type = "case" then
        match value, node.nextSiblingOf "value" with
        | some v, some vNext =>
          some (style_assert
                  (((v.startPoint.column : Int) - (case_keyword.endPoint.column : Int)) ≠ 1)
                  (OutLine.diag v.endPoint Severity.error "Missing whitespace after keyword") ++
                style_assert
                  (((vNext.startPoint.column : Int) - (v.endPoint.column : Int)) ≠ 0)
                  (OutLine.diag vNext.endPoint Severity.error "Missing whitespace after keyword"))
        | _, _ => none
      else
        match node.children.get? 1 with
        | none => none
        | some ckNext =>
          some (style_assert
                  (((ckNext.startPoint.column : Int) - (case_keyword.endPoint.column : Int)) ≠ 0)
                  (OutLine.diag ckNext.endPoint Severity.error "Missing whitespace after keyword"))
    match spacing with
    | none => none
    | some out2 =>
      match check_indents_list (indent + 2) (node.children.drop 3) with
      | none => none
      | some out3 => some (out1 ++ out2 ++ out3)
termination_by 3 * sizeOf node
decreasing_by
· have hdrop : ∀ (k : Nat) (l : List Node), sizeOf (l.drop k) ≤ sizeOf l := by
    intro k l
    induction l generalizing k with
    | nil => simp
    | cons a t ih =>
      cases k with
      | zero => simp
      | succ k =>
        rw [List.drop_succ_cons]
        have := ih k
        simp only [List.cons.sizeOf_spec]
        omega
  have h1 : sizeOf (node.children.drop 3) ≤ sizeOf node.children := hdrop 3 node.children
  have h2 : sizeOf node.children < sizeOf node := by
    cases node
    simp only [Node.children, Node.mk.sizeOf_spec]
    omega
  omega

end

/-- The outer loop of `CChecker.check_style`: for each captured function
body `m`, run `check_indents(2, n)` on each named child `n` of `m`. -/
def check_style_bodies : List Node → Option (List OutLine)
  | [] => some []
  | m :: ms =>
    match check_indents_list 2 m.namedChildren with
    | none => none
    | some out =>
      match check_style_bodies ms with
      | none => none
      | some rest => some (out ++ rest)

/-- `CChecker.check_style`: iterates `self.captures["function.body"]` —
dict indexing, so a missing `"function.body"` key raises `KeyError`
(modelled by `none`) — and runs the indentation recursion at expected
indent 2 on every named child of every captured node. -/
def check_style (captures : List (String × List Node)) : Option (List OutLine) :=
  match lookupCapture captures "function.body" with
  | none => none
  | some ms => check_style_bodies ms

/-- An `if_statement` at column `i` whose header (`if` keyword and
condition, with conforming one-space keyword gap) sits on row `cr` and
whose consequence is an empty compound block with braces at column `i + 2`
on rows `lr` and `lr + 1`; there is no alternative.  Every layout aspect
other than the opening brace's row conforms to the style at expected
indent `i`. -/
def mkIfAt (i cr lr : Nat) : Node :=
  Node.mk "if_statement" true none ⟨cr, i⟩ ⟨lr + 1, i + 3⟩ [
    Node.mk "if" false none ⟨cr, i⟩ ⟨cr, i + 2⟩ [],
    Node.mk "parenthesized_expression" true (some "condition") ⟨cr, i + 3⟩ ⟨cr, i + 6⟩ [],
    Node.mk "compound_statement" true (some "consequence") ⟨lr, i + 2⟩ ⟨lr + 1, i + 3⟩ [
      Node.mk "\x7b" false none ⟨lr, i + 2⟩ ⟨lr, i + 3⟩ [],
      Node.mk "\x7d" false none ⟨lr + 1, i + 2⟩ ⟨lr + 1, i + 3⟩ []]]

/-- A `do { } while (x);` statement: `do` on row 0, braces on rows 1 and 3
at column 4, `while (x)` on row 4.  Layout-conforming at expected indent 2
except that, read as a `while_statement`, `children[0]` is the two-column
token `do` so the keyword/condition gap is four columns. -/
def donode : Node :=
  Node.mk "do_statement" true none ⟨0, 2⟩ ⟨4, 12⟩ [
    Node.mk "do" false none ⟨0, 2⟩ ⟨0, 4⟩ [],
    Node.mk "compound_statement" true (some "body") ⟨1, 4⟩ ⟨3, 5⟩ [
      Node.mk "\x7b" false none ⟨1, 4⟩ ⟨1, 5⟩ [],
      Node.mk "\x7d" false none ⟨3, 4⟩ ⟨3, 5⟩ []],
    Node.mk "while" false none ⟨4, 2⟩ ⟨4, 7⟩ [],
    Node.mk "parenthesized_expression" true (some "condition") ⟨4, 8⟩ ⟨4, 11⟩ [],
    Node.mk ";" false none ⟨4, 11⟩ ⟨4, 12⟩ []]

/-- A declaration `int x …;` starting at column 5 (so misindented for any
expected indent 2), with two named children. -/
def declnode : Node :=
  Node.mk "declaration" true none ⟨0, 5⟩ ⟨0, 15⟩ [
    Node.mk "primitive_type" true none ⟨0, 5⟩ ⟨0, 8⟩ [],
    Node.mk "identifier" true none ⟨0, 9⟩ ⟨0, 10⟩ [],
    Node.mk ";" false none ⟨0, 14⟩ ⟨0, 15⟩ []]

/-- An `if_statement` whose own keyword starts at column 3, while its brace
layout conforms to expected indent 2 (braces at column 4, on their own
rows). -/
def cnode6 : Node :=
  Node.mk "if_statement" true none ⟨0, 3⟩ ⟨2, 5⟩ [
    Node.mk "if" false none ⟨0, 3⟩ ⟨0, 5⟩ [],
    Node.mk "parenthesized_expression" true (some "condition") ⟨0, 6⟩ ⟨0, 9⟩ [],
    Node.mk "compound_statement" true (some "consequence") ⟨1, 4⟩ ⟨2, 5⟩ [
      Node.mk "\x7b" false none ⟨1, 4⟩ ⟨1, 5⟩ [],
      Node.mk "\x7d" false none ⟨2, 4⟩ ⟨2, 5⟩ []]]

/-- `for (;;) ;` on one source row at column 2: no initializer, no
condition, no update; the body is a bare `;` expression statement (no named
children) on the same row as the header. -/
def forNode : Node :=
  Node.mk "for_statement" true none ⟨0, 2⟩ ⟨0, 12⟩ [
    Node.mk "for" false none ⟨0, 2⟩ ⟨0, 5⟩ [],
    Node.mk "(" false none ⟨0, 6⟩ ⟨0, 7⟩ [],
    Node.mk ";" false none ⟨0, 7⟩ ⟨0, 8⟩ [],
    Node.mk ";" false none ⟨0, 8⟩ ⟨0, 9⟩ [],
    Node.mk ")" false none ⟨0, 9⟩ ⟨0, 10⟩ [],
    Node.mk "expression_statement" true (some "body") ⟨0, 11⟩ ⟨0, 12⟩ [
      Node.mk ";" false none ⟨0, 11⟩ ⟨0, 12⟩ []]]

/-- A `default:` case statement at column 4 (`default` and `:` adjacent)
whose only body statement is an expression statement starting at column 9 —
misindented for a case body expected at column 6. -/
def defaultCase : Node :=
  Node.mk "case_statement" true none ⟨3, 4⟩ ⟨4, 15⟩ [
    Node.mk "default" false none ⟨3, 4⟩ ⟨3, 11⟩ [],
    Node.mk ":" false none ⟨3, 11⟩ ⟨3, 12⟩ [],
    Node.mk "expression_statement" true none ⟨4, 9⟩ ⟨4, 15⟩ [
      Node.mk "call_expression" true none ⟨4, 9⟩ ⟨4, 14⟩ [],
      Node.mk ";" false none ⟨4, 14⟩ ⟨4, 15⟩ []]]

/-- A fully style-conforming `switch (x) { }` at column 2: keyword on row 1,
braces on rows 2 and 3 at column 4, no case statements. -/
def switchNode : Node :=
  Node.mk "switch_statement" true none ⟨1, 2⟩ ⟨3, 5⟩ [
    Node.mk "switch" false none ⟨1, 2⟩ ⟨1, 8⟩ [],
    Node.mk "parenthesized_expression" true (some "condition") ⟨1, 9⟩ ⟨1, 12⟩ [],
    Node.mk "compound_statement" true (some "body") ⟨2, 4⟩ ⟨3, 5⟩ [
      Node.mk "\x7b" false none ⟨2, 4⟩ ⟨2, 5⟩ [],
      Node.mk "\x7d" false none ⟨3, 4⟩ ⟨3, 5⟩ []]]

/-- A captured function body whose single named child is `switchNode`. -/
def funcBody9 : Node :=
  Node.mk "compound_statement" true (some "body") ⟨0, 0⟩ ⟨4, 1⟩ [
    Node.mk "\x7b" false none ⟨0, 0⟩ ⟨0, 1⟩ [],
    switchNode,
    Node.mk "\x7d" false none ⟨4, 0⟩ ⟨4, 1⟩ []]

/-- A capture set whose `function.body` group contains `funcBody9`. -/
def captures9 : List (String × List Node) := [("function.body", [funcBody9])]

/-- An `if_statement` starting at column 0 whose brace layout conforms to
expected indent 2 (braces at column 4 on their own rows). -/
def ifAt0 : Node :=
  Node.mk "if_statement" true none ⟨1, 0⟩ ⟨3, 5⟩ [
    Node.mk "if" false none ⟨1, 0⟩ ⟨1, 2⟩ [],
    Node.mk "parenthesized_expression" true (some "condition") ⟨1, 3⟩ ⟨1, 6⟩ [],
    Node.mk "compound_statement" true (some "consequence") ⟨2, 4⟩ ⟨3, 5⟩ [
      Node.mk "\x7b" false none ⟨2, 4⟩ ⟨2, 5⟩ [],
      Node.mk "\x7d" false none ⟨3, 4⟩ ⟨3, 5⟩ []]]

/-- A captured function body whose single named child is `ifAt0`. -/
def funcBody10 : Node :=
  Node.mk "compound_statement" true (some "body") ⟨0, 0⟩ ⟨4, 1⟩ [
    Node.mk "\x7b" false none ⟨0, 0⟩ ⟨0, 1⟩ [],
    ifAt0,
    Node.mk "\x7d" false none ⟨4, 0⟩ ⟨4, 1⟩ []]

/-- A capture set whose `function.body` group contains `funcBody10`. -/
def captures10 : List (String × List Node) := [("function.body", [funcBody10])]

/-- A bare `;` expression statement starting at column 5. -/
def exprStmtAt5 : Node :=
  Node.mk "expression_statement" true none ⟨0, 5⟩ ⟨0, 7⟩ [
    Node.mk ";" false none ⟨0, 6⟩ ⟨0, 7⟩ []]

/-- The `else` keyword token at row `r`, column `c`. -/
def elseTok (r c : Nat) : Node := Node.mk "else" false none ⟨r, c⟩ ⟨r, c + 4⟩ []

/-- One link of an `else if` chain at expected indent `i`: a
style-conforming `if` at column `i` spanning rows `r`..`r + 3`, whose
`else_clause` starts with an `else` token at column `ec` on row `r + 3` and
continues with `tail` (the next link or the terminal else body). -/
def mkLink (i r ec : Nat) (tail : Node) : Node :=
  Node.mk "if_statement" true none ⟨r, i⟩ ⟨r + 3, ec + 4⟩ [
    Node.mk "if" false none ⟨r, i⟩ ⟨r, i + 2⟩ [],
    Node.mk "parenthesized_expression" true (some "condition") ⟨r, i + 3⟩ ⟨r, i + 6⟩ [],
    Node.mk "compound_statement" true (some "consequence") ⟨r + 1, i + 2⟩ ⟨r + 2, i + 3⟩ [
      Node.mk "\x7b" false none ⟨r + 1, i + 2⟩ ⟨r + 1, i + 3⟩ [],
      Node.mk "\x7d" false none ⟨r + 2, i + 2⟩ ⟨r + 2, i + 3⟩ []],
    Node.mk "else_clause" true (some "alternative") ⟨r + 3, ec⟩ ⟨r + 3, ec + 4⟩ [
      elseTok (r + 3) ec,
      tail]]

/-- The body of the terminal `else`: a compound statement (a no-op for the
generic indentation recursion). -/
def termBlock (i r : Nat) : Node :=
  Node.mk "compound_statement" true none ⟨r, i + 2⟩ ⟨r + 1, i + 3⟩ []

/-- An `else if` chain of `N + 1` links at expected indent `i`, rows
starting at `r`: every link's `else` token sits at column `i` except the
terminal (plain) `else`, which sits at column `ec`. -/
def mkChain (i r ec : Nat) : Nat → Node
  | 0 => mkLink i r ec (termBlock i (r + 4))
  | N + 1 => mkLink i r i (mkChain i (r + 4) ec N)

theorem check_indents_list_eq_joinDiags (i : Nat) :
    ∀ l : List Node, check_indents_list i l = joinDiags (l.map (check_indents i)) := by
  intro l
  induction l with
  | nil => simp [check_indents_list, joinDiags]
  | cons n ns ih => simp [check_indents_list, joinDiags, ih]

theorem check_style_bodies_eq_joinDiags :
    ∀ ms : List Node, check_style_bodies ms =
      joinDiags (ms.map (fun m => joinDiags (m.namedChildren.map (check_indents 2)))) := by
  intro ms
  induction ms with
  | nil => simp [check_style_bodies, joinDiags]
  | cons m ms ih =>
    simp [check_style_bodies, joinDiags, ih, check_indents_list_eq_joinDiags]

theorem check_indents_eq_if_handler (i : Nat) (n : Node) (h : n.type = "if_statement") :
    check_indents i n = check_indents_if_statement i n := by
  simp only [check_indents, h]
  simp

theorem check_indents_eq_for_handler (i : Nat) (n : Node) (h : n.type = "for_statement") :
    check_indents i n = check_indents_for_statement i n := by
  simp only [check_indents, h]
  simp

theorem check_indents_eq_while_handler (i : Nat) (n : Node) (h : n.type = "while_statement") :
    check_indents i n = check_indents_while_statement i n := by
  simp only [check_indents, h]
  simp

theorem check_indents_eq_switch_handler (i : Nat) (n : Node) (h : n.type = "switch_statement") :
    check_indents i n = check_indents_switch_statement i n := by
  simp only [check_indents, h]
  simp

theorem check_indents_noop (i : Nat) (n : Node)
    (h1 : ¬ n.type = "if_statement") (h2 : ¬ n.type = "for_statement")
    (h3 : ¬ n.type = "while_statement") (h4 : ¬ n.type = "switch_statement")
    (h5 : ¬ n.type = "return_statement") (h6 : ¬ n.type = "expression_statement") :
    check_indents i n = some [] := by
  simp only [check_indents]
  rw [if_neg h1, if_neg h2, if_neg h3, if_neg h4, if_neg (by rintro (h | h) <;> [exact h5 h; exact h6 h])]

theorem link_eval (i r ec : Nat) (tail : Node) :
    check_indents_if_statement i (mkLink i r ec tail) =
      Option.map
        (fun out => style_assert (ec ≠ i)
          (OutLine.diag ⟨r + 3, ec⟩ Severity.error "Wrong indentation") ++ out)
        (check_indents i tail) := by
  have e1 : ((i + 3 : Nat) : Int) - ((i + 2 : Nat) : Int) = 1 := by push_cast; ring
  have e2 : ¬ (r + 1 = r) := by omega
  have e3 : ¬ (r + 2 = r + 1) := by omega
  have e4 : ¬ (i + 2 ≠ i + 2) := by omega
  simp only [check_indents_if_statement, mkLink, elseTok, Node.children,
    Node.childByFieldName, Node.namedChildren, Node.startPoint, Node.endPoint,
    Node.field, Node.named, Node.type, getNeg, style_assert]
  simp only [List.find?, List.filter, List.get?, List.length]
  simp [check_indents_list, e1, e2, e3, e4]
  cases h : check_indents i tail with
  | none => simp [h]
  | some out => simp [h, style_assert]

/-- C8: For every else-if chain of any length processed by the If handler
at expected indent `i`, each link's leading `else` token is required to sit
at column `i` and each `if_statement` in the chain is checked at the same
expected indent `i`: a chain whose links (and terminal `else`) all sit at
column `i` yields no diagnostic regardless of its length, while shifting
only the terminal `else` to column `i + 1` yields exactly the one
misalignment diagnostic at that `else`, for every length. -/
theorem c8_else_if_chain_no_extra_indent : ∀ (i N r : Nat),
    check_indents i (mkChain i r i N) = some [] ∧
    check_indents i (mkChain i r (i + 1) N) =
      some [OutLine.diag ⟨r + 4 * N + 3, i + 1⟩ Severity.error "Wrong indentation"] := by
  intro i N
  induction N with
  | zero =>
    intro r
    have ht : check_indents i (termBlock i (r + 4)) = some [] :=
      check_indents_noop i _ (by simp [termBlock, Node.type]) (by simp [termBlock, Node.type])
        (by simp [termBlock, Node.type]) (by simp [termBlock, Node.type])
        (by simp [termBlock, Node.type]) (by simp [termBlock, Node.type])
    constructor
    · simp only [mkChain]
      rw [check_indents_eq_if_handler i (mkLink i r i (termBlock i (r + 4))) rfl,
        link_eval, ht]
      simp [style_assert]
    · simp only [mkChain]
      rw [check_indents_eq_if_handler i (mkLink i r (i + 1) (termBlock i (r + 4))) rfl,
        link_eval, ht]
      simp [style_assert]
  | succ N ih =>
    intro r
    obtain ⟨ihg, ihb⟩ := ih (r + 4)
    constructor
    · simp only [mkChain]
      rw [check_indents_eq_if_handler i (mkLink i r i (mkChain i (r + 4) i N)) rfl,
        link_eval, ihg]
      simp [style_assert]
    · simp only [mkChain]
      rw [check_indents_eq_if_handler i (mkLink i r i (mkChain i (r + 4) (i + 1) N)) rfl,
        link_eval, ihb]
      have hrow : r + 4 * (N + 1) + 3 = r + 4 + 4 * N + 3 := by ring
      rw [hrow]
      simp [style_assert]

/-- C2 (failing input): applying the For handler at expected indent 2 to
`for (;;) ;` on one row raises instead of completing: the empty-body check
builds its message from `condition.start_point`, and the `for (;;)` header
has no condition clause, so the run aborts (`none`) with zero diagnostics
rather than completing with zero diagnostics. -/
theorem c2_for_empty_body_raises : check_indents_for_statement 2 forNode = none := by
  have hh : for_header forNode = some [] := rfl
  simp [check_indents_for_statement, hh, forNode, Node.childByFieldName, Node.children,
    Node.field, Node.type, Node.namedChildren, Node.named, Node.prevSiblingOf,
    Node.fieldIdx, List.find?, List.findIdx?, Node.startPoint, Node.endPoint]
  split <;> rfl

/-- C3 (failing input): `check_style` indexes the capture dict directly, so
a capture set with no `"function.body"` key (here: the empty capture set,
as produced for a file with no function definitions) makes the run raise
`KeyError` (`none`) instead of treating the absent key as zero matches. -/
theorem c3_missing_capture_key_raises : check_style [] = none := rfl

/-- C7 (failing input): on a `default:` case statement whose only body
statement is misindented (column 9, expected 6), the Case handler emits no
diagnostic at all — `node.children[3:]` drops three children even though a
`default` label has only two (label and colon), skipping the first body
statement — whereas recursing from offset 2 as specified would flag it. -/
theorem c7_default_case_offset :
    check_indents_case_statement 4 defaultCase = some [] ∧
    check_indents_list 6 (defaultCase.children.drop 2) =
      some [OutLine.diag ⟨4, 9⟩ Severity.error "Wrong indentation"] := by
  constructor
  · simp [check_indents_case_statement, defaultCase, Node.childByFieldName, Node.children,
      Node.field, Node.type, Node.namedChildren, Node.named, Node.nextSiblingOf,
      Node.fieldIdx, Node.startPoint, Node.endPoint, style_assert, check_indents_list]
  · simp [check_indents_list, check_indents, defaultCase, Node.children, Node.type,
      Node.namedChildren, Node.named, Node.startPoint, style_assert]

/-- C4 (counterexample): a `do { } while (x);` node is a no-op for the
indentation recursion (zero diagnostics), although applying the While
handler to the same node at the same indent does emit a diagnostic — so the
recursion does not apply the While handler's checks to `do_statement`. -/
theorem c4_do_statement_cex :
    check_indents 2 donode = some [] ∧
    check_indents_while_statement 2 donode =
      some [OutLine.diag ⟨0, 4⟩ Severity.error "Missing whitespace after keyword"] := by
  constructor
  · simp [check_indents, donode, Node.type, check_indents_list]
  · simp [check_indents_while_statement, donode, Node.childByFieldName, Node.children,
      Node.field, Node.type, Node.namedChildren, Node.named, getNeg,
      Node.startPoint, Node.endPoint, style_assert, check_indents_list,
      List.find?, List.filter, List.get?, List.length]

/-- C4 (amended): a `do_statement` encountered by the indentation recursion
falls through to the default arm of the type dispatch and is a no-op: no
checks are applied and no diagnostic is emitted; only `while_statement` is
delegated to the While handler. -/
theorem c4_do_statement_noop (i : Nat) (n : Node) (h : n.type = "do_statement") :
    check_indents i n = some [] :=
  check_indents_noop i n (by rw [h]; decide) (by rw [h]; decide) (by rw [h]; decide)
    (by rw [h]; decide) (by rw [h]; decide) (by rw [h]; decide)

/-- C4 witness: the amended no-op theorem applied to the concrete
`do { } while (x);` node at expected indent 2. -/
theorem c4_do_statement_witness : check_indents 2 donode = some [] :=
  c4_do_statement_noop 2 donode rfl

/-- C5 (counterexample): a `declaration` node starting at column 5 checked
at expected indent 2 produces no diagnostic at all (and its named children
are never visited): `declaration` is not among the dispatched node types,
so no "Wrong indentation" is emitted even though the start column differs
from the expected indent. -/
theorem c5_declaration_cex :
    check_indents 2 declnode = some [] ∧ declnode.startPoint.column ≠ 2 := by
  constructor
  · simp [check_indents, declnode, Node.type, check_indents_list]
  · decide

/-- C5 (amended): `declaration` and `break_statement` nodes fall through to
the default arm of the indentation recursion: they are no-ops, with no
recursion into children and no column assertion (only `return_statement`
and `expression_statement` get that treatment). -/
theorem c5_decl_break_noop (i : Nat) (n : Node)
    (h : n.type = "declaration" ∨ n.type = "break_statement") :
    check_indents i n = some [] := by
  rcases h with h | h
  · exact check_indents_noop i n (by rw [h]; decide) (by rw [h]; decide) (by rw [h]; decide)
      (by rw [h]; decide) (by rw [h]; decide) (by rw [h]; decide)
  · exact check_indents_noop i n (by rw [h]; decide) (by rw [h]; decide) (by rw [h]; decide)
      (by rw [h]; decide) (by rw [h]; decide) (by rw [h]; decide)

/-- C5 witness: the amended no-op theorem applied to the concrete
declaration node at expected indent 3. -/
theorem c5_decl_break_witness : check_indents 3 declnode = some [] :=
  c5_decl_break_noop 3 declnode (Or.inl rfl)

/-- C6 (counterexample): an `if_statement` whose keyword starts at column 3
but whose brace layout conforms to expected indent 2 yields zero
diagnostics when checked at expected indent 2 — no "Wrong indentation" is
emitted for the statement's own start column after the handler returns. -/
theorem c6_no_post_assert_cex :
    check_indents 2 cnode6 = some [] ∧ cnode6.startPoint.column ≠ 2 := by
  constructor
  · rw [check_indents_eq_if_handler 2 cnode6 rfl]
    simp [check_indents_if_statement, cnode6, Node.childByFieldName, Node.children,
      Node.field, Node.type, Node.namedChildren, Node.named, getNeg,
      Node.startPoint, Node.endPoint, style_assert, check_indents_list,
      List.find?, List.filter, List.get?, List.length]
  · decide

/-- C6 (amended): for the four block statement kinds the indentation
recursion only delegates to the per-statement handler: its result is
exactly the handler's result, with no assertion on the statement's own
start column added after the handler returns. -/
theorem c6_dispatch_no_post_assert (i : Nat) (n : Node) :
    (n.type = "if_statement" → check_indents i n = check_indents_if_statement i n) ∧
    (n.type = "for_statement" → check_indents i n = check_indents_for_statement i n) ∧
    (n.type = "while_statement" → check_indents i n = check_indents_while_statement i n) ∧
    (n.type = "switch_statement" → check_indents i n = check_indents_switch_statement i n) :=
  ⟨check_indents_eq_if_handler i n, check_indents_eq_for_handler i n,
   check_indents_eq_while_handler i n, check_indents_eq_switch_handler i n⟩

/-- C6 witness: the dispatch equation applied to the concrete misplaced
`if_statement` at expected indent 2. -/
theorem c6_dispatch_witness : check_indents 2 cnode6 = check_indents_if_statement 2 cnode6 :=
  (c6_dispatch_no_post_assert 2 cnode6).1 rfl

/-- C1 (counterexample): with the opening brace on the same row as the `if`
header's condition (row 0), the handler does emit the "Left bracket not on
separate line" diagnostic, and with the brace on its own row (row 1) it
emits none — the opposite of the claimed direction in both cases. -/
theorem c1_open_brace_cex :
    check_indents_if_statement 2 (mkIfAt 2 0 0) =
      some [OutLine.diag ⟨0, 5⟩ Severity.error "Left bracket not on separate line"] ∧
    check_indents_if_statement 2 (mkIfAt 2 0 1) = some [] := by
  constructor
  · simp [check_indents_if_statement, mkIfAt, Node.childByFieldName, Node.children,
      Node.field, Node.type, Node.namedChildren, Node.named, getNeg,
      Node.startPoint, Node.endPoint, style_assert, check_indents_list,
      List.find?, List.filter, List.get?, List.length]
  · simp [check_indents_if_statement, mkIfAt, Node.childByFieldName, Node.children,
      Node.field, Node.type, Node.namedChildren, Node.named, getNeg,
      Node.startPoint, Node.endPoint, style_assert, check_indents_list,
      List.find?, List.filter, List.get?, List.length]

/-- C1 (amended): for an `if_statement` whose layout otherwise conforms at
expected indent `i`, the If handler emits the "Left bracket not on separate
line" diagnostic (at the condition's start point) exactly when the opening
brace of the consequence starts on the same source row as the `if` header's
condition, and emits nothing when the brace sits on a different row (its
own line). -/
theorem c1_open_brace_same_row (i cr lr : Nat) :
    check_indents_if_statement i (mkIfAt i cr lr) =
      some (if lr = cr
        then [OutLine.diag ⟨cr, i + 3⟩ Severity.error "Left bracket not on separate line"]
        else []) := by
  have e1 : ((i + 3 : Nat) : Int) - ((i + 2 : Nat) : Int) = 1 := by push_cast; ring
  have e3 : ¬ (lr + 1 = lr) := by omega
  have e4 : ¬ (i + 2 ≠ i + 2) := by omega
  simp only [check_indents_if_statement, mkIfAt, Node.children,
    Node.childByFieldName, Node.namedChildren, Node.startPoint, Node.endPoint,
    Node.field, Node.named, Node.type, getNeg, style_assert]
  simp only [List.find?, List.filter, List.get?, List.length]
  simp [check_indents_list, e1, e3, e4]

/-- C9 (failing input): a check run over a captured function body containing
a style-conforming `switch (x) { }` prints exactly one line, and that line
is the raw tree-sitter point repr from `print(f"{node.start_point}")` in the
switch handler — it is not of the documented diagnostic shape
`<path>:<line>:<column>: [<SEVERITY>] <message>` (its rendering starts with
`Point(`, not with the resolved file path). -/
theorem c9_raw_point_line :
    check_style captures9 = some [OutLine.raw ⟨1, 2⟩] ∧
    ¬ diagShaped "/tmp/test.c" (renderLine "/tmp/test.c" (OutLine.raw ⟨1, 2⟩)) := by
  constructor
  · have hn : lookupCapture captures9 "function.body" = some [funcBody9] := rfl
    have hm : funcBody9.namedChildren = [switchNode] := rfl
    have h1 : check_indents 2 switchNode = some [OutLine.raw ⟨1, 2⟩] := by
      rw [check_indents_eq_switch_handler 2 switchNode rfl]
      simp [check_indents_switch_statement, switchNode, case_statement_checks,
        Node.childByFieldName, Node.children, Node.field, Node.type,
        Node.namedChildren, Node.named, getNeg, Node.startPoint, Node.endPoint,
        style_assert, List.find?, List.filter, List.get?, List.length]
    have h2 : check_indents_list 2 [switchNode] = some [OutLine.raw ⟨1, 2⟩] := by
      simp only [check_indents_list, h1, List.append_nil]
    have h3 : check_style_bodies [funcBody9] = some [OutLine.raw ⟨1, 2⟩] := by
      rw [check_style_bodies, hm, h2, check_style_bodies]
      rfl
    rw [check_style, hn]
    exact h3
  · rintro ⟨p, sev, text, h⟩
    simp only [renderLine] at h
    have hd := congrArg String.data h
    simp only [String.data_append] at hd
    have h0 := congrArg (fun l : List Char => l.get? 0) hd
    simp only [] at h0
    rw [List.get?_append (by decide), List.get?_append (by decide)] at h0
    exact absurd h0 (by decide)

/-- C10 (counterexample): a capture set whose function body's single named
child is an `if_statement` starting at column 0 (but with handler-conforming
brace layout for indent 2) produces zero diagnostics — the top-level
statement is not required to start at column 2, because the recursion never
asserts a block statement's own start column. -/
theorem c10_top_level_cex :
    check_style captures10 = some [] ∧ ifAt0.startPoint.column ≠ 2 := by
  have hn : lookupCapture captures10 "function.body" = some [funcBody10] := rfl
  have hm : funcBody10.namedChildren = [ifAt0] := rfl
  have h1 : check_indents 2 ifAt0 = some [] := by
    rw [check_indents_eq_if_handler 2 ifAt0 rfl]
    simp [check_indents_if_statement, ifAt0, Node.childByFieldName, Node.children,
      Node.field, Node.type, Node.namedChildren, Node.named, getNeg,
      Node.startPoint, Node.endPoint, style_assert, check_indents_list,
      List.find?, List.filter, List.get?, List.length]
  have h2 : check_indents_list 2 [ifAt0] = some [] := by
    simp only [check_indents_list, h1, List.append_nil]
  have h3 : check_style_bodies [funcBody10] = some [] := by
    rw [check_style_bodies, hm, h2, check_style_bodies]
    rfl
  constructor
  · rw [check_style, hn]
    exact h3
  · decide

/-- C10 (amended): `check_style` runs the indentation recursion with
expected indent exactly 2 on every named child of every node captured under
`"function.body"` (first conjunct: the run is exactly the concatenation of
`check_indents 2` over those named children, in order); consequently a
top-level `return_statement` or `expression_statement` is asserted to start
at column 2 (second conjunct), while the block statement kinds are not
column-checked themselves. -/
theorem c10_indent_two_for_named_children :
    (∀ (captures : List (String × List Node)) (ms : List Node),
      lookupCapture captures "function.body" = some ms →
      check_style captures =
        joinDiags (ms.map (fun m => joinDiags (m.namedChildren.map (check_indents 2))))) ∧
    (∀ n : Node, n.type = "return_statement" ∨ n.type = "expression_statement" →
      n.namedChildren = [] →
      check_indents 2 n = some (style_assert (n.startPoint.column ≠ 2)
        (OutLine.diag n.startPoint Severity.error "Wrong indentation"))) := by
  constructor
  · intro captures ms h
    rw [check_style, h]
    exact check_style_bodies_eq_joinDiags ms
  · intro n ht hnc
    have h5 : ¬ n.type = "if_statement" := by rcases ht with h | h <;> rw [h] <;> decide
    have h6 : ¬ n.type = "for_statement" := by rcases ht with h | h <;> rw [h] <;> decide
    have h7 : ¬ n.type = "while_statement" := by rcases ht with h | h <;> rw [h] <;> decide
    have h8 : ¬ n.type = "switch_statement" := by rcases ht with h | h <;> rw [h] <;> decide
    simp only [check_indents]
    rw [if_neg h5, if_neg h6, if_neg h7, if_neg h8, if_pos ht, hnc]
    rw [check_indents_list]
    rfl

/-- C10 witness: the amended theorem applied to the concrete capture set
(first conjunct) and to a concrete misindented expression statement
(second conjunct). -/
theorem c10_indent_two_witness :
    check_style captures10 =
      joinDiags ([funcBody10].map (fun m => joinDiags (m.namedChildren.map (check_indents 2)))) ∧
    check_indents 2 exprStmtAt5 = some (style_assert (exprStmtAt5.startPoint.column ≠ 2)
      (OutLine.diag exprStmtAt5.startPoint Severity.error "Wrong indentation")) :=
  ⟨c10_indent_two_for_named_children.1 captures10 [funcBody10] rfl,
   c10_indent_two_for_named_children.2 exprStmtAt5 (Or.inr rfl) rfl⟩
